import Mathlib

/-!
Verification development for the G-Assist core plugin supervisor
(`src/core/g-assist-core.py`, class `PluginManager`).

The Python code is shallowly embedded: the manager's mutable state
(`plugin_manifests`, `running_plugins`) becomes an explicit `PMState`
threaded through the operations, and every interaction with the outside
world (filesystem, process spawning, pipe I/O, `json.loads`) is supplied
by an `Env` record, so each operation is a pure function from state and
environment to result, new state, and a trace of I/O events.
-/

namespace GAssist

/-- JSON values, as produced by `json.load` / `json.loads`. -/
inductive Json where
  | null
  | bool (b : Bool)
  | num (n : Int)
  | str (s : String)
  | arr (elems : List Json)
  | obj (fields : List (String × Json))

/-- Python truthiness (`if not x`) for a JSON value: `None`, `False`, `0`,
`""`, `[]`, `{}` are falsy. -/
def Json.truthy : Json → Bool
  | .null => false
  | .bool b => b
  | .num n => n != 0
  | .str s => !(s == "")
  | .arr es => !es.isEmpty
  | .obj fs => !fs.isEmpty

/-- Truthiness of an optional value (`dict.get` returning `None` is falsy). -/
def optTruthy : Option Json → Bool
  | none => false
  | some j => j.truthy

/-- Association-list lookup, modelling Python `dict.get` / `dict[k]`. -/
def lookupA {α : Type} : List (String × α) → String → Option α
  | [], _ => none
  | (k, v) :: t, key => if k = key then some v else lookupA t key

/-- Python `d[k] = v`: overwrite in place if the key is present, else append
(dicts preserve insertion order). -/
def insertA {α : Type} (l : List (String × α)) (key : String) (v : α) :
    List (String × α) :=
  if (lookupA l key).isSome then
    l.map (fun p => if p.1 = key then (key, v) else p)
  else l ++ [(key, v)]

/-- Python `del d[k]`. -/
def eraseA {α : Type} (l : List (String × α)) (key : String) :
    List (String × α) :=
  l.filter (fun p => decide (p.1 ≠ key))

/-- `dict.get(key)` on a JSON value (only objects have keys). -/
def Json.get? : Json → String → Option Json
  | .obj fs, key => lookupA fs key
  | _, _ => none

/-- `dict.get(key, default)`. -/
def Json.getD (j : Json) (key : String) (d : Json) : Json :=
  (j.get? key).getD d

/-- One entry of the plugins root directory, as `Path.iterdir` sees it.
`manifestParse` is the result of `json.load` on `<entry>/manifest.json`:
`none` stands for a missing file or malformed JSON (both mapped to a load
failure by `load_plugin_manifest`). -/
structure DirEntry where
  name : String
  isDir : Bool
  hasManifest : Bool
  manifestParse : Option Json

/-- The filesystem as the manager sees it: the plugins root and an
existence oracle for executable paths. -/
structure FileSystem where
  pluginsDir : String
  rootExists : Bool
  entries : List DirEntry
  fileExists : String → Bool

/-- A POSIX-absolute path: first character `/`. -/
def isAbsolute (s : String) : Bool :=
  match s.data with
  | [] => false
  | c :: _ => c == '/'

/-- `pathlib`'s `/` operator (POSIX flavour): an absolute right operand
replaces the base entirely. -/
def pathJoin (base rel : String) : String :=
  if isAbsolute rel then rel else base ++ "/" ++ rel

/-- Find the root entry with the given name. -/
def entryLookup (fs : FileSystem) (name : String) : Option DirEntry :=
  fs.entries.find? (fun e => e.name == name)

/-- `open(plugins_dir / name / 'manifest.json')` + `json.load`:
`FileNotFoundError` (no such directory or file) and `JSONDecodeError`
both yield `none`, as both are caught by `load_plugin_manifest`. -/
def fsLoadManifest (fs : FileSystem) (name : String) : Option Json :=
  match entryLookup fs name with
  | none => none
  | some e => if e.isDir && e.hasManifest then e.manifestParse else none

/-- Outcome of `terminate()` / `wait(timeout=5)` on a process. -/
inductive StopOutcome where
  | graceful
  | timeoutKilled
  | osError
deriving DecidableEq

/-- The outside world for one burst of operations: filesystem, process
spawning (`none` = `OSError`/`SubprocessError`), per-plugin stop outcome,
pipe availability, write success, the raw line `readline()` returns
(`""` = EOF), and `json.loads` (`none` = `JSONDecodeError`). -/
structure Env where
  fs : FileSystem
  spawn : String → Option Nat
  stopOutcome : String → StopOutcome
  stdinAvail : String → Bool
  writeOk : String → Bool
  stdoutAvail : String → Bool
  replyLine : String → String
  parse : String → Option Json

/-- Observable I/O actions of the manager. -/
inductive IOEvent where
  | spawn (name exePath : String)
  | write (name : String)
  | read (name : String)
  | terminate (name : String)
  | kill (name : String)
deriving DecidableEq

/-- Channel (request/response) I/O, as opposed to process management. -/
def isChannelEvent : IOEvent → Bool
  | .write _ => true
  | .read _ => true
  | _ => false

/-- The `PluginManager`'s mutable state: the manifest cache
`plugin_manifests` and the registry `running_plugins` (pid per name). -/
structure PMState where
  manifests : List (String × Json)
  running : List (String × Nat)

/-- `load_plugin_manifest`: read and parse the manifest, cache it on
success (whatever it parsed to, even a falsy value), return `None` on
`FileNotFoundError` / `JSONDecodeError`. -/
def loadPluginManifest (env : Env) (s : PMState) (name : String) :
    Option Json × PMState :=
  match fsLoadManifest env.fs name with
  | some m => (some m, { s with manifests := insertA s.manifests name m })
  | none => (none, s)

/-- The manifest-obtaining prologue shared by `start_plugin` and
`get_plugin_info`: `manifest = self.plugin_manifests.get(name)`;
`if not manifest: manifest = self.load_plugin_manifest(name)`. -/
def getOrLoadManifest (env : Env) (s : PMState) (name : String) :
    Option Json × PMState :=
  if optTruthy (lookupA s.manifests name) then (lookupA s.manifests name, s)
  else loadPluginManifest env s name

/-- The part of `start_plugin` after the manifest has been obtained
(`s1` is the state after the cache lookup / load, `mOpt` its result):
fail if the manifest is falsy/absent; read `executable`, fail if falsy;
resolve it against the plugin's directory, fail if the file does not
exist; spawn, registering the pid on success. A truthy non-string
`executable` would raise an uncaught `TypeError` at the path join in the
source; it is modelled as a failure return. -/
def startPluginBody (env : Env) (s1 : PMState) (name : String)
    (mOpt : Option Json) : Bool × PMState × List IOEvent :=
  match mOpt with
  | none => (false, s1, [])
  | some m =>
    if !m.truthy then (false, s1, [])
    else if !optTruthy (m.get? "executable") then (false, s1, [])
    else
      match m.get? "executable" with
      | some (.str e) =>
        if env.fs.fileExists (pathJoin (pathJoin env.fs.pluginsDir name) e) then
          match env.spawn (pathJoin (pathJoin env.fs.pluginsDir name) e) with
          | some pid =>
            (true, { s1 with running := insertA s1.running name pid },
              [.spawn name (pathJoin (pathJoin env.fs.pluginsDir name) e)])
          | none => (false, s1, [])
        else (false, s1, [])
      | _ => (false, s1, [])

/-- `start_plugin`: no-op success if the name is already registered;
otherwise obtain the manifest (cache or load) and run the body above. -/
def startPlugin (env : Env) (s : PMState) (name : String) :
    Bool × PMState × List IOEvent :=
  if (lookupA s.running name).isSome then (true, s, [])
  else
    startPluginBody env (getOrLoadManifest env s name).2 name
      (getOrLoadManifest env s name).1

/-- The `finally` block of `_monitor_plugin`, run by the monitor thread
once the process has exited: `if name in running_plugins: del`. -/
def monitorReap (s : PMState) (name : String) : PMState :=
  if (lookupA s.running name).isSome then
    { s with running := eraseA s.running name }
  else s

/-- `stop_plugin`: success if not registered; otherwise `terminate()` then
`wait(5)` — graceful exit and timeout-then-`kill()` both report success,
an `OSError` reports failure. The registry entry is never touched here:
its removal is the monitor thread's job. -/
def stopPlugin (env : Env) (s : PMState) (name : String) :
    Bool × PMState × List IOEvent :=
  if (lookupA s.running name).isNone then (true, s, [])
  else
    match env.stopOutcome name with
    | .graceful => (true, s, [.terminate name])
    | .timeoutKilled => (true, s, [.terminate name, .kill name])
    | .osError => (false, s, [.terminate name])

/-- `_ensure_plugin_running`: lazy start. -/
def ensurePluginRunning (env : Env) (s : PMState) (name : String) :
    Bool × PMState × List IOEvent :=
  if (lookupA s.running name).isNone then startPlugin env s name
  else (true, s, [])

/-- The function names of a manifest: `manifest.get('functions', [])`,
keeping each element's `name` when it is a string (only a string can
compare equal to the requested function name). -/
def manifestFunctionNames (m : Json) : List String :=
  match m.getD "functions" (.arr []) with
  | .arr fs => fs.filterMap (fun f =>
      match f.get? "name" with
      | some (.str n) => some n
      | _ => none)
  | _ => []

/-- `_check_function_exists`: falsy/absent cached manifest fails; else
scan the `functions` list for an entry whose `name` equals the request. -/
def checkFunctionExists (s : PMState) (name fn : String) : Bool :=
  match lookupA s.manifests name with
  | none => false
  | some m =>
    if !m.truthy then false
    else (manifestFunctionNames m).contains fn

/-- `_prepare_command`: the request envelope (`params or {}`). -/
def prepareCommand (fn : String) (params : Option Json) : Json :=
  let props := match params with
    | some p => if p.truthy then p else Json.obj []
    | none => Json.obj []
  .obj [("tool_calls", .arr [.obj [("func", .str fn), ("properties", props)]])]

/-- `_send_and_receive`: fail without I/O if stdin is unavailable; write
the serialized command (an `OSError` during write/flush is caught and
fails); then read one line from stdout, strip it; an empty result (EOF)
fails, a `JSONDecodeError` on parse is caught and fails, otherwise the
parsed reply is returned verbatim. The process handle itself is looked up
in the registry by the caller; its pipes are represented by `env`. -/
def sendAndReceive (env : Env) (name : String) (_cmd : Json) :
    Option Json × List IOEvent :=
  if !env.stdinAvail name then (none, [])
  else if !env.writeOk name then (none, [])
  else if !env.stdoutAvail name then (none, [IOEvent.write name])
  else if (env.replyLine name).trim == "" then
    (none, [.write name, .read name])
  else
    match env.parse ((env.replyLine name).trim) with
    | none => (none, [.write name, .read name])
    | some r => (some r, [.write name, .read name])

/-- `invoke_plugin`: ensure running (lazy start), check the function
against the manifest allow-list, then one send/receive round trip. -/
def invokePlugin (env : Env) (s : PMState) (name fn : String)
    (params : Option Json) : Option Json × PMState × List IOEvent :=
  if !(ensurePluginRunning env s name).1 then
    (none, (ensurePluginRunning env s name).2.1,
      (ensurePluginRunning env s name).2.2)
  else if !checkFunctionExists (ensurePluginRunning env s name).2.1 name fn then
    (none, (ensurePluginRunning env s name).2.1,
      (ensurePluginRunning env s name).2.2)
  else
    ((sendAndReceive env name (prepareCommand fn params)).1,
      (ensurePluginRunning env s name).2.1,
      (ensurePluginRunning env s name).2.2 ++
        (sendAndReceive env name (prepareCommand fn params)).2)

/-- `discover_plugins`: empty if the root is missing; otherwise the names
of the immediate subdirectories that contain a `manifest.json`. -/
def discoverPlugins (fs : FileSystem) : List String :=
  if !fs.rootExists then []
  else (fs.entries.filter (fun e => e.isDir && e.hasManifest)).map
    (fun e => e.name)

/-- `get_plugin_info`: obtain the manifest (cache or load), `None` if it
is falsy/absent, else assemble the info record. -/
def getPluginInfo (env : Env) (s : PMState) (name : String) :
    Option Json × PMState :=
  match (getOrLoadManifest env s name).1 with
  | none => (none, (getOrLoadManifest env s name).2)
  | some m =>
    if !m.truthy then (none, (getOrLoadManifest env s name).2)
    else
      (some (.obj [
        ("name", .str name),
        ("description", m.getD "description" (.str "")),
        ("functions", m.getD "functions" (.arr [])),
        ("tags", m.getD "tags" (.arr [])),
        ("persistent", m.getD "persistent" (.bool false)),
        ("running",
          .bool (lookupA (getOrLoadManifest env s name).2.running name).isSome)]),
        (getOrLoadManifest env s name).2)

/-- The loop body of `list_plugins`, threading the accumulated info list
and the state through the discovered names. -/
def listPluginsAux (env : Env) :
    List String → List Json × PMState → List Json × PMState
  | [], acc => acc
  | n :: t, acc =>
    let r := getPluginInfo env acc.2 n
    match r.1 with
    | some info => listPluginsAux env t (acc.1 ++ [info], r.2)
    | none => listPluginsAux env t (acc.1, r.2)

/-- `list_plugins`: discover, then keep the info of each name whose
`get_plugin_info` succeeds. -/
def listPlugins (env : Env) (s : PMState) : List Json × PMState :=
  listPluginsAux env (discoverPlugins env.fs) ([], s)

/-- The loop body of `shutdown`: `stop_plugin` each name, discarding its
boolean result (the source ignores it). -/
def shutdownAux (env : Env) :
    List String → PMState → List IOEvent → PMState × List IOEvent
  | [], s, evs => (s, evs)
  | n :: t, s, evs =>
    let r := stopPlugin env s n
    shutdownAux env t r.2.1 (evs ++ r.2.2)

/-- `shutdown`: `for name in self.running_plugins: self.stop_plugin(name)`.
The iteration is over the registry keys; no result is returned to the
caller (the Python method returns `None`). -/
def shutdown (env : Env) (s : PMState) : PMState × List IOEvent :=
  shutdownAux env (s.running.map Prod.fst) s []

/-- Keys of an association list are pairwise distinct. -/
def keysNodup {α : Type} (l : List (String × α)) : Prop :=
  (l.map Prod.fst).Nodup

/-- Number of entries stored under a key. -/
def countKey {α : Type} (l : List (String × α)) (k : String) : Nat :=
  (l.filter (fun p => decide (p.1 = k))).length

instance {α : Type} (l : List (String × α)) : Decidable (keysNodup l) :=
  List.nodupDecidable _

/-- The registry/manifest-cache invariant: every registered plugin has a
cached manifest. -/
def Inv (s : PMState) : Prop :=
  ∀ p ∈ s.running, (lookupA s.manifests p.1).isSome = true

instance (s : PMState) : Decidable (Inv s) :=
  List.decidableBAll _ s.running

/-- One atomic state transition of the manager: any public operation, a
manifest load, or the monitor thread's reap. -/
inductive Step : PMState → PMState → Prop
  | start (env : Env) (s : PMState) (name : String) :
      Step s (startPlugin env s name).2.1
  | stop (env : Env) (s : PMState) (name : String) :
      Step s (stopPlugin env s name).2.1
  | reap (s : PMState) (name : String) :
      Step s (monitorReap s name)
  | invoke (env : Env) (s : PMState) (name fn : String)
      (params : Option Json) :
      Step s (invokePlugin env s name fn params).2.1
  | load (env : Env) (s : PMState) (name : String) :
      Step s (loadPluginManifest env s name).2
  | info (env : Env) (s : PMState) (name : String) :
      Step s (getPluginInfo env s name).2
  | list (env : Env) (s : PMState) :
      Step s (listPlugins env s).2
  | shutdownAll (env : Env) (s : PMState) :
      Step s (shutdown env s).1

/-! ### Concrete fixtures used by witnesses and counterexamples -/

/-- A well-formed manifest: relative executable, one function `ping`. -/
def mfGood : Json :=
  .obj [("executable", .str "run.exe"),
        ("functions", .arr [.obj [("name", .str "ping")]])]

/-- A plugins root holding one plugin `p` with manifest `mfGood`. -/
def fsGood : FileSystem :=
  { pluginsDir := "/plugins", rootExists := true,
    entries := [⟨"p", true, true, some mfGood⟩],
    fileExists := fun path => path == "/plugins/p/run.exe" }

/-- A benign environment over `fsGood`: spawns succeed, stops are
graceful, pipes work, the reply line is not JSON. -/
def envGood : Env :=
  { fs := fsGood, spawn := fun _ => some 42,
    stopOutcome := fun _ => .graceful,
    stdinAvail := fun _ => true, writeOk := fun _ => true,
    stdoutAvail := fun _ => true,
    replyLine := fun _ => "notjson", parse := fun _ => none }

/-- Same environment but every stop raises `OSError`. -/
def envFail : Env := { envGood with stopOutcome := fun _ => .osError }

/-- Fresh manager state: empty cache, nothing running. -/
def st0 : PMState := { manifests := [], running := [] }

/-- State with plugin `p` cached and running (pid 7). -/
def stRun : PMState := { manifests := [("p", mfGood)], running := [("p", 7)] }

/-- State with plugin `p` cached but not running. -/
def stRdy : PMState := { manifests := [("p", mfGood)], running := [] }

/-- State with two cached plugins `p` and `q`, both running. -/
def stRun2 : PMState :=
  { manifests := [("p", mfGood), ("q", mfGood)],
    running := [("p", 7), ("q", 8)] }

/-- A manifest whose `executable` is an absolute path. -/
def mfAbs : Json := .obj [("executable", .str "/evil/exe")]

/-- A plugins root whose plugin `p` declares the absolute executable;
only `/evil/exe` exists on disk. -/
def fsAbs : FileSystem :=
  { pluginsDir := "/plugins", rootExists := true,
    entries := [⟨"p", true, true, some mfAbs⟩],
    fileExists := fun path => path == "/evil/exe" }

/-- `envGood` over the absolute-executable filesystem. -/
def envAbs : Env := { envGood with fs := fsAbs }

/-- State with `p`'s absolute-executable manifest cached, not running. -/
def stAbs : PMState := { manifests := [("p", mfAbs)], running := [] }

/-- A root whose directory `p` has NO manifest file at all. -/
def fsMissing : FileSystem :=
  { pluginsDir := "/plugins", rootExists := true,
    entries := [⟨"p", true, false, none⟩],
    fileExists := fun _ => false }

/-- A root whose directory `p` has a manifest file with malformed JSON
(`json.load` fails, modelled by `manifestParse = none`). -/
def fsBad : FileSystem :=
  { pluginsDir := "/plugins", rootExists := true,
    entries := [⟨"p", true, true, none⟩],
    fileExists := fun _ => false }

/-- `envGood` over the malformed-manifest filesystem. -/
def envBad : Env := { envGood with fs := fsBad }

/-! ### Association-list lemmas -/

theorem lookupA_eq_none_iff {α : Type} (l : List (String × α)) (k : String) :
    lookupA l k = none ↔ k ∉ l.map Prod.fst := by
  induction l with
  | nil => simp [lookupA]
  | cons p t ih =>
    obtain ⟨a, b⟩ := p
    by_cases h : a = k
    · subst h; simp [lookupA]
    · have h' : k ≠ a := fun hh => h hh.symm
      simp [lookupA, h, ih, h']

theorem lookupA_isSome_of_mem_keys {α : Type} (l : List (String × α))
    (k : String) (h : k ∈ l.map Prod.fst) : (lookupA l k).isSome = true := by
  rcases h' : lookupA l k with _ | w
  · exact absurd h ((lookupA_eq_none_iff l k).mp h')
  · rfl

theorem lookupA_append {α : Type} (l₁ l₂ : List (String × α)) (k : String) :
    lookupA (l₁ ++ l₂) k =
      match lookupA l₁ k with
      | some v => some v
      | none => lookupA l₂ k := by
  induction l₁ with
  | nil => simp [lookupA]
  | cons p t ih =>
    obtain ⟨a, b⟩ := p
    by_cases h : a = k
    · subst h; simp [lookupA]
    · simp [lookupA, h, ih]

theorem lookupA_replace_self {α : Type} (l : List (String × α))
    (k : String) (v : α) :
    lookupA (l.map (fun p => if p.1 = k then (k, v) else p)) k =
      (lookupA l k).map (fun _ => v) := by
  induction l with
  | nil => rfl
  | cons p t ih =>
    obtain ⟨a, b⟩ := p
    rw [List.map_cons]
    by_cases h : a = k
    · subst h
      rw [show (if ((a, b) : String × α).1 = a then (a, v) else (a, b)) = (a, v)
          from if_pos rfl]
      simp [lookupA]
    · rw [show (if ((a, b) : String × α).1 = k then (k, v) else (a, b)) = (a, b)
          from if_neg h]
      simp [lookupA, h, ih]

theorem lookupA_replace_ne {α : Type} (l : List (String × α))
    (k : String) (v : α) (key : String) (h : key ≠ k) :
    lookupA (l.map (fun p => if p.1 = k then (k, v) else p)) key =
      lookupA l key := by
  induction l with
  | nil => rfl
  | cons p t ih =>
    obtain ⟨a, b⟩ := p
    rw [List.map_cons]
    by_cases hak : a = k
    · subst hak
      rw [show (if ((a, b) : String × α).1 = a then (a, v) else (a, b)) = (a, v)
          from if_pos rfl]
      have h1 : a ≠ key := fun hh => h hh.symm
      simp [lookupA, h1, ih]
    · rw [show (if ((a, b) : String × α).1 = k then (k, v) else (a, b)) = (a, b)
          from if_neg hak]
      simp [lookupA, ih]

theorem lookupA_insertA_self {α : Type} (l : List (String × α))
    (k : String) (v : α) : lookupA (insertA l k v) k = some v := by
  unfold insertA
  split
  · rename_i h
    rw [lookupA_replace_self]
    rcases h' : lookupA l k with _ | w
    · rw [h'] at h; simp at h
    · rfl
  · rename_i h
    rw [lookupA_append]
    rcases h' : lookupA l k with _ | w
    · simp [lookupA]
    · rw [h'] at h; simp at h

theorem lookupA_insertA_ne {α : Type} (l : List (String × α))
    (k : String) (v : α) (key : String) (h : key ≠ k) :
    lookupA (insertA l k v) key = lookupA l key := by
  unfold insertA
  split
  · exact lookupA_replace_ne l k v key h
  · rw [lookupA_append]
    rcases h' : lookupA l key with _ | w
    · have h1 : k ≠ key := fun hh => h hh.symm
      simp [h', lookupA, h1]
    · simp [h']

theorem lookupA_eraseA_self {α : Type} (l : List (String × α)) (k : String) :
    lookupA (eraseA l k) k = none := by
  induction l with
  | nil => rfl
  | cons p t ih =>
    obtain ⟨a, b⟩ := p
    by_cases h : a = k
    · subst h; simpa [eraseA] using ih
    · simpa [eraseA, lookupA, h] using ih

theorem mem_insertA {α : Type} {l : List (String × α)} {k : String} {v : α}
    {p : String × α} (h : p ∈ insertA l k v) : p = (k, v) ∨ p ∈ l := by
  unfold insertA at h
  split at h
  · obtain ⟨q, hq, hfq⟩ := List.mem_map.mp h
    by_cases hqk : q.1 = k
    · left; simp [hqk] at hfq; exact hfq.symm
    · right; simp [hqk] at hfq; exact hfq ▸ hq
  · rcases List.mem_append.mp h with h | h
    · right; exact h
    · left; simpa using h

theorem mem_eraseA {α : Type} {l : List (String × α)} {k : String}
    {p : String × α} (h : p ∈ eraseA l k) : p ∈ l :=
  List.mem_of_mem_filter h

theorem keys_replace {α : Type} (l : List (String × α)) (k : String)
    (v : α) :
    (l.map (fun p => if p.1 = k then (k, v) else p)).map Prod.fst =
      l.map Prod.fst := by
  induction l with
  | nil => rfl
  | cons p t ih =>
    obtain ⟨a, b⟩ := p
    rw [List.map_cons, List.map_cons]
    by_cases hak : a = k
    · subst hak
      rw [show (if ((a, b) : String × α).1 = a then (a, v) else (a, b)) = (a, v)
          from if_pos rfl]
      simp [ih]
    · rw [show (if ((a, b) : String × α).1 = k then (k, v) else (a, b)) = (a, b)
          from if_neg hak]
      simp [ih]

theorem keys_insertA_some {α : Type} (l : List (String × α)) (k : String)
    (v : α) (h : (lookupA l k).isSome = true) :
    (insertA l k v).map Prod.fst = l.map Prod.fst := by
  unfold insertA
  rw [if_pos h]
  exact keys_replace l k v

theorem keys_insertA_none {α : Type} (l : List (String × α)) (k : String)
    (v : α) (h : lookupA l k = none) :
    (insertA l k v).map Prod.fst = l.map Prod.fst ++ [k] := by
  unfold insertA
  rw [if_neg (by simp [h])]
  simp

theorem keysNodup_insertA {α : Type} (l : List (String × α)) (k : String)
    (v : α) (h : keysNodup l) : keysNodup (insertA l k v) := by
  unfold keysNodup at *
  rcases h' : lookupA l k with _ | w
  · rw [keys_insertA_none l k v h']
    have hk : k ∉ l.map Prod.fst := (lookupA_eq_none_iff l k).mp h'
    simp [List.nodup_append, h, hk]
  · rw [keys_insertA_some l k v (by simp [h'])]
    exact h

theorem countKey_eq_zero {α : Type} (l : List (String × α)) (k : String)
    (h : lookupA l k = none) : countKey l k = 0 := by
  induction l with
  | nil => rfl
  | cons p t ih =>
    obtain ⟨a, b⟩ := p
    by_cases hak : a = k
    · subst hak; simp [lookupA] at h
    · simp only [lookupA, if_neg hak] at h
      unfold countKey
      rw [List.filter_cons_of_neg (by simpa using hak)]
      exact ih h

theorem countKey_eq_one {α : Type} (l : List (String × α)) (k : String)
    (hnd : keysNodup l) (h : (lookupA l k).isSome = true) :
    countKey l k = 1 := by
  induction l with
  | nil => simp [lookupA] at h
  | cons p t ih =>
    obtain ⟨a, b⟩ := p
    have hnd' : keysNodup t := (List.nodup_cons.mp hnd).2
    by_cases hak : a = k
    · subst hak
      have ha : a ∉ t.map Prod.fst := (List.nodup_cons.mp hnd).1
      have h0 : countKey t a = 0 :=
        countKey_eq_zero t a ((lookupA_eq_none_iff t a).mpr ha)
      unfold countKey at h0 ⊢
      rw [List.filter_cons_of_pos (by simp), List.length_cons, h0]
    · simp only [lookupA, if_neg hak] at h
      unfold countKey
      rw [List.filter_cons_of_neg (by simpa using hak)]
      exact ih hnd' h

/-! ### Structural facts about the operations -/

theorem inv_mono (s s' : PMState) (hr : s'.running = s.running)
    (hm : ∀ k, (lookupA s.manifests k).isSome = true →
      (lookupA s'.manifests k).isSome = true)
    (h : Inv s) : Inv s' := by
  intro p hp
  rw [hr] at hp
  exact hm p.1 (h p hp)

theorem loadPluginManifest_running (env : Env) (s : PMState) (name : String) :
    (loadPluginManifest env s name).2.running = s.running := by
  unfold loadPluginManifest
  split <;> rfl

theorem loadPluginManifest_manifests_mono (env : Env) (s : PMState)
    (name k : String) (h : (lookupA s.manifests k).isSome = true) :
    (lookupA (loadPluginManifest env s name).2.manifests k).isSome = true := by
  unfold loadPluginManifest
  split
  · by_cases hk : k = name
    · subst hk; simp [lookupA_insertA_self]
    · simp only [lookupA_insertA_ne _ _ _ _ hk]
      exact h
  · exact h

theorem loadPluginManifest_result (env : Env) (s : PMState) (name : String)
    (m : Json) (h : (loadPluginManifest env s name).1 = some m) :
    lookupA (loadPluginManifest env s name).2.manifests name = some m := by
  rcases hfs : fsLoadManifest env.fs name with _ | m'
  · rw [show loadPluginManifest env s name = (none, s) from by
      unfold loadPluginManifest; rw [hfs]] at h
    simp at h
  · have he : loadPluginManifest env s name =
        (some m', { s with manifests := insertA s.manifests name m' }) := by
      unfold loadPluginManifest; rw [hfs]
    rw [he] at h ⊢
    have hm : m' = m := by simpa using h
    subst hm
    exact lookupA_insertA_self s.manifests name m'

theorem getOrLoadManifest_running (env : Env) (s : PMState) (name : String) :
    (getOrLoadManifest env s name).2.running = s.running := by
  simp only [getOrLoadManifest]
  split
  · rfl
  · exact loadPluginManifest_running env s name

theorem getOrLoadManifest_manifests_mono (env : Env) (s : PMState)
    (name k : String) (h : (lookupA s.manifests k).isSome = true) :
    (lookupA (getOrLoadManifest env s name).2.manifests k).isSome = true := by
  simp only [getOrLoadManifest]
  split
  · exact h
  · exact loadPluginManifest_manifests_mono env s name k h

theorem getOrLoadManifest_result (env : Env) (s : PMState) (name : String)
    (m : Json) (h : (getOrLoadManifest env s name).1 = some m) :
    lookupA (getOrLoadManifest env s name).2.manifests name = some m := by
  simp only [getOrLoadManifest] at h ⊢
  split at h
  · rename_i hc
    rw [if_pos hc]
    simpa using h
  · rename_i hc
    rw [if_neg hc]
    exact loadPluginManifest_result env s name m h

theorem getOrLoadManifest_inv (env : Env) (s : PMState) (name : String)
    (h : Inv s) : Inv (getOrLoadManifest env s name).2 :=
  inv_mono s _ (getOrLoadManifest_running env s name)
    (fun k => getOrLoadManifest_manifests_mono env s name k) h

theorem stopPlugin_state (env : Env) (s : PMState) (name : String) :
    (stopPlugin env s name).2.1 = s := by
  unfold stopPlugin
  split
  · rfl
  · split <;> rfl

theorem stopPlugin_attempts (env : Env) (s : PMState) (name : String)
    (h : (lookupA s.running name).isSome = true) :
    IOEvent.terminate name ∈ (stopPlugin env s name).2.2 := by
  have h' : (lookupA s.running name).isNone = false := by
    rcases hl : lookupA s.running name with _ | w
    · rw [hl] at h; simp at h
    · rfl
  unfold stopPlugin
  rw [if_neg (by simp [h'])]
  split <;> simp

theorem monitorReap_manifests (s : PMState) (name : String) :
    (monitorReap s name).manifests = s.manifests := by
  unfold monitorReap
  split <;> rfl

theorem monitorReap_lookup_self (s : PMState) (name : String) :
    lookupA (monitorReap s name).running name = none := by
  unfold monitorReap
  split
  · exact lookupA_eraseA_self s.running name
  · rename_i h
    rcases hl : lookupA s.running name with _ | w
    · rfl
    · rw [hl] at h; simp at h

theorem monitorReap_mem (s : PMState) (name : String) (p : String × Nat)
    (h : p ∈ (monitorReap s name).running) : p ∈ s.running := by
  unfold monitorReap at h
  split at h
  · exact mem_eraseA h
  · exact h

theorem monitorReap_inv (s : PMState) (name : String) (h : Inv s) :
    Inv (monitorReap s name) := by
  intro p hp
  rw [monitorReap_manifests]
  exact h p (monitorReap_mem s name p hp)

theorem shutdownAux_state (env : Env) (names : List String) (s : PMState)
    (evs : List IOEvent) : (shutdownAux env names s evs).1 = s := by
  induction names generalizing s evs with
  | nil => rfl
  | cons n t ih =>
    simp only [shutdownAux]
    rw [stopPlugin_state]
    exact ih s _

theorem shutdown_state (env : Env) (s : PMState) : (shutdown env s).1 = s :=
  shutdownAux_state env _ s []

theorem shutdownAux_evs_mem (env : Env) (names : List String) (s : PMState)
    (evs : List IOEvent) (e : IOEvent) (h : e ∈ evs) :
    e ∈ (shutdownAux env names s evs).2 := by
  induction names generalizing s evs with
  | nil => exact h
  | cons n t ih =>
    simp only [shutdownAux]
    exact ih _ _ (List.mem_append.mpr (Or.inl h))

theorem shutdownAux_attempts (env : Env) (names : List String) (s : PMState)
    (evs : List IOEvent) :
    ∀ n ∈ names, (lookupA s.running n).isSome = true →
      IOEvent.terminate n ∈ (shutdownAux env names s evs).2 := by
  induction names generalizing s evs with
  | nil => intro n hn; simp at hn
  | cons m t ih =>
    intro n hn hrun
    simp only [shutdownAux]
    rcases List.mem_cons.mp hn with rfl | hn'
    · exact shutdownAux_evs_mem env t _ _ _
        (List.mem_append.mpr (Or.inr (stopPlugin_attempts env s n hrun)))
    · rw [stopPlugin_state]
      exact ih s _ n hn' hrun

theorem isNone_false_of_isSome {α : Type} (o : Option α)
    (h : o.isSome = true) : o.isNone = false := by
  cases o
  · simp at h
  · rfl

theorem startPlugin_already (env : Env) (s : PMState) (name : String)
    (h : (lookupA s.running name).isSome = true) :
    startPlugin env s name = (true, s, []) := by
  unfold startPlugin
  rw [if_pos h]

theorem startPlugin_state_cases (env : Env) (s : PMState) (name : String) :
    ((lookupA s.running name).isSome = true ∧
      startPlugin env s name = (true, s, [])) ∨
    ((startPlugin env s name).1 = false ∧
      (startPlugin env s name).2.1.running = s.running ∧
      (startPlugin env s name).2.2 = []) ∨
    (∃ pid exePath,
      lookupA s.running name = none ∧
      (startPlugin env s name).1 = true ∧
      (startPlugin env s name).2.1.running = insertA s.running name pid ∧
      (startPlugin env s name).2.2 = [IOEvent.spawn name exePath] ∧
      (lookupA (startPlugin env s name).2.1.manifests name).isSome = true) := by
  by_cases hrun : (lookupA s.running name).isSome = true
  · exact Or.inl ⟨hrun, startPlugin_already env s name hrun⟩
  · have hnone : lookupA s.running name = none := by
      rcases hl : lookupA s.running name with _ | w
      · rfl
      · rw [hl] at hrun; simp at hrun
    right
    unfold startPlugin
    rw [if_neg hrun]
    unfold startPluginBody
    split
    · exact Or.inl ⟨rfl, getOrLoadManifest_running env s name, rfl⟩
    · rename_i m hm
      split
      · exact Or.inl ⟨rfl, getOrLoadManifest_running env s name, rfl⟩
      · split
        · exact Or.inl ⟨rfl, getOrLoadManifest_running env s name, rfl⟩
        · split
          · rename_i e _
            split
            · split
              · rename_i pid _
                refine Or.inr ⟨pid, pathJoin (pathJoin env.fs.pluginsDir name) e,
                  hnone, rfl, ?_, rfl, ?_⟩
                · rw [getOrLoadManifest_running env s name]
                · rw [getOrLoadManifest_result env s name m hm]
                  rfl
              · exact Or.inl ⟨rfl, getOrLoadManifest_running env s name, rfl⟩
            · exact Or.inl ⟨rfl, getOrLoadManifest_running env s name, rfl⟩
          · exact Or.inl ⟨rfl, getOrLoadManifest_running env s name, rfl⟩

theorem startPlugin_manifests_mono (env : Env) (s : PMState)
    (name k : String) (h : (lookupA s.manifests k).isSome = true) :
    (lookupA (startPlugin env s name).2.1.manifests k).isSome = true := by
  unfold startPlugin
  split
  · exact h
  · have hg := getOrLoadManifest_manifests_mono env s name k h
    unfold startPluginBody
    repeat' split
    all_goals exact hg

theorem startPlugin_inv (env : Env) (s : PMState) (name : String)
    (h : Inv s) : Inv (startPlugin env s name).2.1 := by
  rcases startPlugin_state_cases env s name with ⟨_, he⟩ | ⟨_, hr, _⟩ |
    ⟨pid, ep, _, _, hr, _, hm⟩
  · rw [he]; exact h
  · intro p hp
    rw [hr] at hp
    exact startPlugin_manifests_mono env s name p.1 (h p hp)
  · intro p hp
    rw [hr] at hp
    rcases mem_insertA hp with rfl | hp'
    · exact hm
    · exact startPlugin_manifests_mono env s name p.1 (h p hp')

theorem ensure_of_running (env : Env) (s : PMState) (name : String)
    (h : (lookupA s.running name).isSome = true) :
    ensurePluginRunning env s name = (true, s, []) := by
  unfold ensurePluginRunning
  rw [if_neg (by simp [isNone_false_of_isSome _ h])]

theorem ensure_of_not_running (env : Env) (s : PMState) (name : String)
    (h : lookupA s.running name = none) :
    ensurePluginRunning env s name = startPlugin env s name := by
  unfold ensurePluginRunning
  rw [if_pos (by simp [h])]

theorem ensure_state_cases (env : Env) (s : PMState) (name : String) :
    ensurePluginRunning env s name = (true, s, []) ∨
    ensurePluginRunning env s name = startPlugin env s name := by
  unfold ensurePluginRunning
  split
  · right; rfl
  · left; rfl

theorem ensure_no_channel_io (env : Env) (s : PMState) (name : String) :
    ∀ ev ∈ (ensurePluginRunning env s name).2.2, isChannelEvent ev = false := by
  rcases ensure_state_cases env s name with he | he <;> rw [he]
  · simp
  · rcases startPlugin_state_cases env s name with ⟨_, h2⟩ | ⟨_, _, h2⟩ |
      ⟨pid, ep, _, _, _, h2, _⟩
    · rw [h2]; simp
    · rw [h2]; simp
    · rw [h2]; simp [isChannelEvent]

theorem ensure_inv (env : Env) (s : PMState) (name : String) (h : Inv s) :
    Inv (ensurePluginRunning env s name).2.1 := by
  rcases ensure_state_cases env s name with he | he <;> rw [he]
  · exact h
  · exact startPlugin_inv env s name h

theorem invokePlugin_state (env : Env) (s : PMState) (name fn : String)
    (params : Option Json) :
    (invokePlugin env s name fn params).2.1 =
      (ensurePluginRunning env s name).2.1 := by
  unfold invokePlugin
  split
  · rfl
  · split <;> rfl

theorem invokePlugin_inv (env : Env) (s : PMState) (name fn : String)
    (params : Option Json) (h : Inv s) :
    Inv (invokePlugin env s name fn params).2.1 := by
  rw [invokePlugin_state]
  exact ensure_inv env s name h

theorem getPluginInfo_state (env : Env) (s : PMState) (name : String) :
    (getPluginInfo env s name).2 = (getOrLoadManifest env s name).2 := by
  unfold getPluginInfo
  split
  · rfl
  · split <;> rfl

theorem getPluginInfo_inv (env : Env) (s : PMState) (name : String)
    (h : Inv s) : Inv (getPluginInfo env s name).2 := by
  rw [getPluginInfo_state]
  exact getOrLoadManifest_inv env s name h

theorem listPluginsAux_inv (env : Env) (names : List String)
    (acc : List Json × PMState) (h : Inv acc.2) :
    Inv (listPluginsAux env names acc).2 := by
  induction names generalizing acc with
  | nil => exact h
  | cons n t ih =>
    simp only [listPluginsAux]
    split
    · exact ih _ (getPluginInfo_inv env acc.2 n h)
    · exact ih _ (getPluginInfo_inv env acc.2 n h)

theorem listPlugins_inv (env : Env) (s : PMState) (h : Inv s) :
    Inv (listPlugins env s).2 :=
  listPluginsAux_inv env _ ([], s) h

theorem loadPluginManifest_inv (env : Env) (s : PMState) (name : String)
    (h : Inv s) : Inv (loadPluginManifest env s name).2 :=
  inv_mono s _ (loadPluginManifest_running env s name)
    (fun k => loadPluginManifest_manifests_mono env s name k) h

theorem stopPlugin_inv (env : Env) (s : PMState) (name : String)
    (h : Inv s) : Inv (stopPlugin env s name).2.1 := by
  rw [stopPlugin_state]
  exact h

theorem shutdown_inv (env : Env) (s : PMState) (h : Inv s) :
    Inv (shutdown env s).1 := by
  rw [shutdown_state]
  exact h

/-! ### Claim theorems -/

/-- C9: in every reachable state of the manager, every plugin name
present in the running-plugins registry also has its manifest present in
the manifest cache: `start_plugin` caches the manifest before
registering the process, and every other operation (stop, monitor reap,
invoke, manifest load, info, list, shutdown) preserves the invariant. -/
theorem registry_manifest_invariant (s s' : PMState) (h : Inv s)
    (hstep : Step s s') : Inv s' := by
  cases hstep with
  | start env _ name => exact startPlugin_inv env s name h
  | stop env _ name => exact stopPlugin_inv env s name h
  | reap _ name => exact monitorReap_inv s name h
  | invoke env _ name fn params => exact invokePlugin_inv env s name fn params h
  | load env _ name => exact loadPluginManifest_inv env s name h
  | info env _ name => exact getPluginInfo_inv env s name h
  | list env _ => exact listPlugins_inv env s h
  | shutdownAll env _ => exact shutdown_inv env s h

/-- Witness for C9: the invariant holds at `stRun` and is preserved by a
concrete monitor-reap step. -/
theorem registry_manifest_invariant_witness : Inv (monitorReap stRun "p") :=
  registry_manifest_invariant stRun (monitorReap stRun "p") (by decide)
    (Step.reap stRun "p")

/-- C2: at most one registry entry per plugin name (exactly one after a
successful start, keys staying duplicate-free), and `start_plugin` is
idempotent: a second call on the already-running plugin returns success
with the state unchanged and no spawn. -/
theorem start_plugin_idempotent (env : Env) (s : PMState) (name : String)
    (hnd : keysNodup s.running)
    (h1 : (startPlugin env s name).1 = true) :
    countKey (startPlugin env s name).2.1.running name = 1 ∧
    keysNodup (startPlugin env s name).2.1.running ∧
    startPlugin env (startPlugin env s name).2.1 name =
      (true, (startPlugin env s name).2.1, []) := by
  rcases startPlugin_state_cases env s name with ⟨hr, he⟩ | ⟨hf, _, _⟩ |
    ⟨pid, ep, _, _, hrun, _, _⟩
  · rw [he]
    exact ⟨countKey_eq_one s.running name hnd hr, hnd,
      startPlugin_already env s name hr⟩
  · rw [h1] at hf
    cases hf
  · have hsome : (lookupA (startPlugin env s name).2.1.running name).isSome
        = true := by
      rw [hrun, lookupA_insertA_self]
      rfl
    have hnd' : keysNodup (startPlugin env s name).2.1.running := by
      rw [hrun]
      exact keysNodup_insertA s.running name pid hnd
    exact ⟨countKey_eq_one _ name hnd' hsome, hnd',
      startPlugin_already env _ name hsome⟩

/-- Witness for C2 at a fresh state: starting `p` succeeds, leaves one
entry, and the second start is a no-op success. -/
theorem start_plugin_idempotent_witness :
    countKey (startPlugin envGood st0 "p").2.1.running "p" = 1 ∧
    keysNodup (startPlugin envGood st0 "p").2.1.running ∧
    startPlugin envGood (startPlugin envGood st0 "p").2.1 "p" =
      (true, (startPlugin envGood st0 "p").2.1, []) :=
  start_plugin_idempotent envGood st0 "p" (by decide) rfl

/-- C4: if the plugin is not running, `invoke_plugin` first attempts to
start it (lazy start), and a start failure surfaces as the invoke's own
failure (`None`). -/
theorem invoke_lazy_start (env : Env) (s : PMState) (name fn : String)
    (params : Option Json) (hnr : lookupA s.running name = none) :
    ensurePluginRunning env s name = startPlugin env s name ∧
    ((startPlugin env s name).1 = false →
      (invokePlugin env s name fn params).1 = none) := by
  refine ⟨ensure_of_not_running env s name hnr, fun hf => ?_⟩
  unfold invokePlugin
  rw [ensure_of_not_running env s name hnr, hf]
  simp

/-- Witness for C4: invoking the undiscovered plugin `ghost` attempts a
start, the start fails, and the invoke reports failure. -/
theorem invoke_lazy_start_witness :
    ensurePluginRunning envGood st0 "ghost" = startPlugin envGood st0 "ghost" ∧
    (invokePlugin envGood st0 "ghost" "f" none).1 = none :=
  ⟨(invoke_lazy_start envGood st0 "ghost" "f" none rfl).1,
   (invoke_lazy_start envGood st0 "ghost" "f" none rfl).2 rfl⟩

/-- C5: once the send/receive step is reached (pipes available, write
succeeded), an empty/EOF reply line yields a structured `None` failure,
and a reply line that fails JSON parsing also yields a structured `None`
failure — never an uncaught error. -/
theorem send_receive_failures (env : Env) (name : String) (cmd : Json)
    (h1 : env.stdinAvail name = true) (h2 : env.writeOk name = true)
    (h3 : env.stdoutAvail name = true) :
    ((env.replyLine name).trim = "" →
      sendAndReceive env name cmd = (none, [.write name, .read name])) ∧
    (env.parse ((env.replyLine name).trim) = none →
      sendAndReceive env name cmd = (none, [.write name, .read name])) := by
  unfold sendAndReceive
  rw [if_neg (by simp [h1]), if_neg (by simp [h2]), if_neg (by simp [h3])]
  constructor
  · intro he
    rw [if_pos (by simp [he])]
  · intro hp
    by_cases he : (env.replyLine name).trim = ""
    · rw [if_pos (by simp [he])]
    · rw [if_neg (by simp [he]), hp]

/-- Witness for C5: the fixture's reply line `notjson` fails to parse and
the round trip returns the structured failure. -/
theorem send_receive_failures_witness :
    sendAndReceive envGood "p" (Json.obj []) =
      (none, [.write "p", .read "p"]) :=
  (send_receive_failures envGood "p" (Json.obj []) rfl rfl rfl).2 rfl

/-- `start_plugin` with a truthy cached manifest reduces to the body. -/
theorem startPlugin_cached (env : Env) (s : PMState) (name : String)
    (m : Json) (hnr : lookupA s.running name = none)
    (hm : lookupA s.manifests name = some m) (hmt : m.truthy = true) :
    startPlugin env s name = startPluginBody env s name (some m) := by
  have hgl : getOrLoadManifest env s name = (some m, s) := by
    unfold getOrLoadManifest
    rw [hm]
    rw [if_pos (show optTruthy (some m) = true by simp [optTruthy, hmt])]
  unfold startPlugin
  rw [if_neg (by simp [hnr]), hgl]

/-- The successful branch of the start body: truthy manifest, non-empty
string executable, existing file, successful spawn. -/
theorem startPluginBody_success (env : Env) (s1 : PMState) (name : String)
    (m : Json) (e : String) (pid : Nat) (hmt : m.truthy = true)
    (he : m.get? "executable" = some (.str e)) (het : e ≠ "")
    (hex : env.fs.fileExists (pathJoin (pathJoin env.fs.pluginsDir name) e)
      = true)
    (hsp : env.spawn (pathJoin (pathJoin env.fs.pluginsDir name) e)
      = some pid) :
    startPluginBody env s1 name (some m) =
      (true, { s1 with running := insertA s1.running name pid },
        [.spawn name (pathJoin (pathJoin env.fs.pluginsDir name) e)]) := by
  have hse : optTruthy (some (Json.str e)) = true := by
    simp [optTruthy, Json.truthy, het]
  simp only [startPluginBody]
  rw [he]
  simp [hmt, hse, hex, hsp]

/-- C1 counterexample: at `stRun` (plugin `p` running with pid 7) under a
graceful stop, `stop_plugin` returns success yet `p` is still present in
the running-plugins registry immediately afterwards — the entry is only
removed later, by the monitor thread. -/
theorem stop_success_leaves_entry :
    (stopPlugin envGood stRun "p").1 = true ∧
    lookupA (stopPlugin envGood stRun "p").2.1.running "p" = some 7 :=
  ⟨rfl, rfl⟩

/-- C1 (amended): `stop_plugin` returning success does not itself remove
the registry entry; once the monitor routine has additionally reaped the
exited process, the name is absent from the running registry and a
subsequent `start_plugin` succeeds (given the cached manifest, an
existing executable and a successful spawn). -/
theorem stop_reap_then_start (env : Env) (s : PMState) (name : String)
    (m : Json) (e : String) (pid : Nat)
    (hstop : (stopPlugin env s name).1 = true)
    (hm : lookupA s.manifests name = some m) (hmt : m.truthy = true)
    (he : m.get? "executable" = some (.str e)) (het : e ≠ "")
    (hex : env.fs.fileExists (pathJoin (pathJoin env.fs.pluginsDir name) e)
      = true)
    (hsp : env.spawn (pathJoin (pathJoin env.fs.pluginsDir name) e)
      = some pid) :
    lookupA (monitorReap (stopPlugin env s name).2.1 name).running name
      = none ∧
    (startPlugin env (monitorReap (stopPlugin env s name).2.1 name) name).1
      = true := by
  rw [stopPlugin_state]
  refine ⟨monitorReap_lookup_self s name, ?_⟩
  have hm2 : lookupA (monitorReap s name).manifests name = some m := by
    rw [monitorReap_manifests]
    exact hm
  rw [startPlugin_cached env (monitorReap s name) name m
    (monitorReap_lookup_self s name) hm2 hmt]
  rw [startPluginBody_success env (monitorReap s name) name m e pid hmt he
    het hex hsp]

/-- Witness for C1 (amended) at `stRun`: stop, reap, then restart. -/
theorem stop_reap_then_start_witness :
    lookupA (monitorReap (stopPlugin envGood stRun "p").2.1 "p").running "p"
      = none ∧
    (startPlugin envGood (monitorReap (stopPlugin envGood stRun "p").2.1 "p")
      "p").1 = true :=
  stop_reap_then_start envGood stRun "p" mfGood "run.exe" 42 rfl rfl rfl rfl
    (by decide) (by decide) rfl

/-- C3: a function name absent from the plugin's manifest function list
makes `invoke_plugin` fail with `None`, writing no request and reading no
reply: its I/O trace is exactly the lazy start's, which contains no
channel I/O. -/
theorem invoke_unknown_function (env : Env) (s : PMState) (name fn : String)
    (params : Option Json)
    (habs : ∀ m, lookupA (ensurePluginRunning env s name).2.1.manifests name
        = some m → fn ∉ manifestFunctionNames m) :
    (invokePlugin env s name fn params).1 = none ∧
    (invokePlugin env s name fn params).2.2 =
      (ensurePluginRunning env s name).2.2 ∧
    ∀ ev ∈ (invokePlugin env s name fn params).2.2, isChannelEvent ev = false := by
  have hchk : checkFunctionExists (ensurePluginRunning env s name).2.1 name fn
      = false := by
    unfold checkFunctionExists
    split
    · rfl
    · rename_i m hm
      split
      · rfl
      · have hmem := habs m hm
        cases hc : (manifestFunctionNames m).contains fn
        · rfl
        · exact absurd (List.mem_of_elem_eq_true hc) hmem
  unfold invokePlugin
  split
  · exact ⟨rfl, rfl, ensure_no_channel_io env s name⟩
  · rw [hchk]
    exact ⟨rfl, rfl, ensure_no_channel_io env s name⟩

/-- Witness for C3: invoking the unknown function `nope` on running
plugin `p` fails, with the trace of the (no-op) lazy start only. -/
theorem invoke_unknown_function_witness :
    (invokePlugin envGood stRun "p" "nope" none).1 = none ∧
    (invokePlugin envGood stRun "p" "nope" none).2.2 =
      (ensurePluginRunning envGood stRun "p").2.2 := by
  have habs : ∀ m,
      lookupA (ensurePluginRunning envGood stRun "p").2.1.manifests "p"
        = some m → "nope" ∉ manifestFunctionNames m := by
    intro m hm
    have h2 : some mfGood = some m := hm
    injection h2 with h3
    rw [← h3]
    decide
  have h := invoke_unknown_function envGood stRun "p" "nope" none habs
  exact ⟨h.1, h.2.1⟩

/-- C6 counterexample: with the manifest executable `/evil/exe` (an
absolute path), `start_plugin` succeeds and spawns `/evil/exe`, a path
that is not inside the plugin's own directory `/plugins/p`: pathlib's
join lets an absolute executable escape the plugin directory. -/
theorem start_absolute_executable_escapes :
    (startPlugin envAbs stAbs "p").1 = true ∧
    (startPlugin envAbs stAbs "p").2.2 = [IOEvent.spawn "p" "/evil/exe"] ∧
    (("/evil/exe".data.take "/plugins/p/".data.length)
      == "/plugins/p/".data) = false :=
  ⟨rfl, rfl, rfl⟩

/-- C6 (amended): `start_plugin` resolves the executable by
pathlib-style join with the plugin's own directory — a relative
executable resolves inside the plugin's directory, while an absolute one
replaces the base and escapes it — and it fails, spawning nothing and
changing nothing, when the manifest lacks a (truthy) `executable` field
or when the resolved file does not exist. -/
theorem start_executable_resolution (env : Env) (s : PMState) (name : String)
    (m : Json) (hnr : lookupA s.running name = none)
    (hm : lookupA s.manifests name = some m) (hmt : m.truthy = true)
    (hname : isAbsolute name = false) :
    (optTruthy (m.get? "executable") = false →
      startPlugin env s name = (false, s, [])) ∧
    (∀ e, m.get? "executable" = some (.str e) → e ≠ "" →
      env.fs.fileExists (pathJoin (pathJoin env.fs.pluginsDir name) e)
        = false →
      startPlugin env s name = (false, s, [])) ∧
    (∀ e, isAbsolute e = false →
      pathJoin (pathJoin env.fs.pluginsDir name) e =
        env.fs.pluginsDir ++ "/" ++ name ++ "/" ++ e) ∧
    (∀ e pid, m.get? "executable" = some (.str e) → e ≠ "" →
      env.fs.fileExists (pathJoin (pathJoin env.fs.pluginsDir name) e)
        = true →
      env.spawn (pathJoin (pathJoin env.fs.pluginsDir name) e) = some pid →
      (startPlugin env s name).2.2 =
        [IOEvent.spawn name (pathJoin (pathJoin env.fs.pluginsDir name) e)])
    := by
  have hb := startPlugin_cached env s name m hnr hm hmt
  refine ⟨?_, ?_, ?_, ?_⟩
  · intro hexe
    rw [hb]
    simp only [startPluginBody]
    simp [hmt, hexe]
  · intro e he het hex
    have hse : optTruthy (some (Json.str e)) = true := by
      simp [optTruthy, Json.truthy, het]
    rw [hb]
    simp only [startPluginBody]
    rw [he]
    simp [hmt, hse, hex]
  · intro e hrel
    unfold pathJoin
    rw [if_neg (by simp [hrel]), if_neg (by simp [hname])]
  · intro e pid he het hex hsp
    rw [hb, startPluginBody_success env s name m e pid hmt he het hex hsp]

/-- Witness for C6 (amended): the relative executable of `p` resolves
inside `/plugins/p`, and the spawn event carries that resolved path. -/
theorem start_executable_resolution_witness :
    (startPlugin envGood stRdy "p").2.2 =
      [IOEvent.spawn "p"
        (pathJoin (pathJoin envGood.fs.pluginsDir "p") "run.exe")] :=
  (start_executable_resolution envGood stRdy "p" mfGood rfl rfl rfl
      (by decide)).2.2.2 "run.exe" 42 rfl (by decide) (by decide) rfl

/-- C7: `discover_plugins` returns the empty sequence when the root does
not exist; otherwise it counts each name exactly once when some immediate
subdirectory of that name contains a manifest file, and zero times
otherwise (the OS directory listing has no duplicate names). -/
theorem discover_plugins_spec (fs : FileSystem)
    (hnd : (fs.entries.map (fun e => e.name)).Nodup) :
    (fs.rootExists = false → discoverPlugins fs = []) ∧
    (∀ n : String, (discoverPlugins fs).count n =
      if fs.rootExists = true ∧ ∃ e ∈ fs.entries,
          e.name = n ∧ e.isDir = true ∧ e.hasManifest = true
      then 1 else 0) := by
  have hnd' : (discoverPlugins fs).Nodup := by
    unfold discoverPlugins
    split
    · exact List.nodup_nil
    · exact List.Nodup.sublist
        ((List.filter_sublist fs.entries).map (fun e => e.name)) hnd
  have hmem : ∀ n : String, n ∈ discoverPlugins fs ↔
      (fs.rootExists = true ∧ ∃ e ∈ fs.entries,
        e.name = n ∧ e.isDir = true ∧ e.hasManifest = true) := by
    intro n
    unfold discoverPlugins
    split
    · rename_i hroot
      simp at hroot
      simp [hroot]
    · rename_i hroot
      simp at hroot
      constructor
      · intro hn
        obtain ⟨e, hef, hen⟩ := List.mem_map.mp hn
        have hf := List.mem_filter.mp hef
        have hb := hf.2
        simp at hb
        exact ⟨hroot, e, hf.1, hen, hb.1, hb.2⟩
      · rintro ⟨-, e, he, hen, hd, hm2⟩
        exact List.mem_map.mpr
          ⟨e, List.mem_filter.mpr ⟨he, by simp [hd, hm2]⟩, hen⟩
  refine ⟨?_, ?_⟩
  · intro hr
    unfold discoverPlugins
    rw [if_pos (by simp [hr])]
  · intro n
    rw [List.count_eq_of_nodup hnd']
    by_cases hc : fs.rootExists = true ∧ ∃ e ∈ fs.entries,
        e.name = n ∧ e.isDir = true ∧ e.hasManifest = true
    · rw [if_pos hc, if_pos ((hmem n).mpr hc)]
    · rw [if_neg hc, if_neg (fun hmm => hc ((hmem n).mp hmm))]

/-- Witness for C7 at `fsGood`: `p` is discovered exactly once. -/
theorem discover_plugins_spec_witness : (discoverPlugins fsGood).count "p" = 1
    := by
  rw [(discover_plugins_spec fsGood (by decide)).2 "p"]
  rfl

/-- C8 counterexample: with plugin `p` running, a stop failing with
`OSError` (stop_plugin returns False) leaves `shutdown`'s caller-visible
outcome — the final state and the I/O trace; the Python method returns
`None` — identical to a fully successful shutdown: individual failures
are not aggregated or reported to the caller. -/
theorem shutdown_no_failure_report :
    (stopPlugin envFail stRun "p").1 = false ∧
    shutdown envFail stRun = shutdown envGood stRun :=
  ⟨rfl, rfl⟩

/-- C8 (amended): `shutdown` attempts to stop every currently-running
plugin and is best-effort — a failing stop does not abort the sweep and
the remaining plugins still get their termination attempt — but it does
not aggregate the individual failures for reporting: stop results are
discarded and the state is returned unchanged. -/
theorem shutdown_best_effort (env : Env) (s : PMState) :
    (shutdown env s).1 = s ∧
    ∀ n ∈ s.running.map Prod.fst,
      IOEvent.terminate n ∈ (shutdown env s).2 := by
  refine ⟨shutdown_state env s, ?_⟩
  intro n hn
  exact shutdownAux_attempts env (s.running.map Prod.fst) s [] n hn
    (lookupA_isSome_of_mem_keys s.running n hn)

/-- Witness for C8: with every stop failing, both running plugins still
get a termination attempt and the state is unchanged. -/
theorem shutdown_best_effort_witness :
    (shutdown envFail stRun2).1 = stRun2 ∧
    IOEvent.terminate "p" ∈ (shutdown envFail stRun2).2 ∧
    IOEvent.terminate "q" ∈ (shutdown envFail stRun2).2 :=
  ⟨(shutdown_best_effort envFail stRun2).1,
   (shutdown_best_effort envFail stRun2).2 "p" (by decide),
   (shutdown_best_effort envFail stRun2).2 "q" (by decide)⟩

/-- `get_plugin_info` fails (and leaves the state unchanged) when the
manifest is neither cached nor loadable. -/
theorem getPluginInfo_fail (env : Env) (st : PMState) (name : String)
    (hc : lookupA st.manifests name = none)
    (hf : fsLoadManifest env.fs name = none) :
    getPluginInfo env st name = (none, st) := by
  have hgl : getOrLoadManifest env st name = (none, st) := by
    unfold getOrLoadManifest
    rw [hc]
    rw [if_neg (by simp [optTruthy])]
    unfold loadPluginManifest
    rw [hf]
  unfold getPluginInfo
  rw [hgl]

/-- `get_plugin_info` for a different name cannot cache this name's
manifest. -/
theorem getPluginInfo_preserves_none (env : Env) (st : PMState)
    (n name : String) (hne : n ≠ name)
    (hc : lookupA st.manifests name = none) :
    lookupA (getPluginInfo env st n).2.manifests name = none := by
  rw [getPluginInfo_state]
  simp only [getOrLoadManifest]
  split
  · exact hc
  · unfold loadPluginManifest
    split
    · rename_i m _
      rw [lookupA_insertA_ne st.manifests n m name (fun hh => hne hh.symm)]
      exact hc
    · exact hc

/-- A successful `get_plugin_info` result carries its own plugin name in
the `name` field. -/
theorem getPluginInfo_name_field (env : Env) (st : PMState) (n : String)
    (info : Json) (h : (getPluginInfo env st n).1 = some info) :
    info.get? "name" = some (.str n) := by
  unfold getPluginInfo at h
  split at h
  · simp at h
  · split at h
    · simp at h
    · rw [← Option.some.inj h]
      rfl

/-- The `list_plugins` loop never emits an info entry for a name whose
manifest is uncached and unloadable. -/
theorem listPluginsAux_omits (env : Env) (names : List String)
    (name : String) (hf : fsLoadManifest env.fs name = none) :
    ∀ (infos : List Json) (st : PMState),
      lookupA st.manifests name = none →
      (∀ i ∈ infos, i.get? "name" ≠ some (.str name)) →
      ∀ i ∈ (listPluginsAux env names (infos, st)).1,
        i.get? "name" ≠ some (.str name) := by
  induction names with
  | nil =>
    intro infos st _ hacc i hi
    exact hacc i hi
  | cons n t ih =>
    intro infos st hc hacc i hi
    simp only [listPluginsAux] at hi
    by_cases hne : n = name
    · subst hne
      rw [getPluginInfo_fail env st n hc hf] at hi
      exact ih infos st hc hacc i hi
    · rcases hg : (getPluginInfo env st n).1 with _ | info'
      · try rw [hg] at hi
        exact ih infos (getPluginInfo env st n).2
          (getPluginInfo_preserves_none env st n name hne hc) hacc i hi
      · try rw [hg] at hi
        refine ih (infos ++ [info']) (getPluginInfo env st n).2
          (getPluginInfo_preserves_none env st n name hne hc) ?_ i hi
        intro j hj
        rcases List.mem_append.mp hj with hj | hj
        · exact hacc j hj
        · have hje : j = info' := by simpa using hj
          rw [hje, getPluginInfo_name_field env st n info' hg]
          intro hcon
          injection hcon with hcon2
          injection hcon2 with hcon3
          exact hne hcon3

/-- C10 counterexample: the directory `p` exists in the root but has no
manifest file, and `discover_plugins` excludes it entirely — it never
appears in the discover result, contrary to the claim that a
missing-manifest plugin appears in discover and is only dropped by
list_plugins. -/
theorem discover_excludes_missing_manifest :
    fsMissing.rootExists = true ∧
    fsMissing.entries.map (fun e => e.name) = ["p"] ∧
    discoverPlugins fsMissing = [] :=
  ⟨rfl, rfl, rfl⟩

/-- C10 (amended): a plugin directory whose manifest file exists but
holds malformed JSON appears in `discover_plugins` yet is silently
omitted from `list_plugins` (when its manifest is not already cached); a
directory with no manifest file at all is excluded from
`discover_plugins` itself. -/
theorem malformed_manifest_skipped (env : Env) (s : PMState) (name : String)
    (e : DirEntry) (hl : entryLookup env.fs name = some e)
    (hd : e.isDir = true) (hmf : e.hasManifest = true)
    (hp : e.manifestParse = none) (hr : env.fs.rootExists = true)
    (hc : lookupA s.manifests name = none) :
    name ∈ discoverPlugins env.fs ∧
    ∀ info ∈ (listPlugins env s).1, info.get? "name" ≠ some (.str name) := by
  have hee : e ∈ env.fs.entries := List.mem_of_find?_eq_some hl
  have hname : e.name = name := by
    have h2 := List.find?_some hl
    simpa using h2
  have hf : fsLoadManifest env.fs name = none := by
    unfold fsLoadManifest
    rw [hl]
    show (if e.isDir && e.hasManifest then e.manifestParse else none) = none
    rw [if_pos (by simp [hd, hmf])]
    exact hp
  constructor
  · unfold discoverPlugins
    rw [if_neg (by simp [hr])]
    exact List.mem_map.mpr
      ⟨e, List.mem_filter.mpr ⟨hee, by simp [hd, hmf]⟩, hname⟩
  · intro info hi
    exact listPluginsAux_omits env (discoverPlugins env.fs) name hf [] s hc
      (by intro j hj; simp at hj) info hi

/-- Witness for C10: over `fsBad` (manifest file present for `p` but its
JSON malformed), `p` is discovered yet `list_plugins` yields no entry. -/
theorem malformed_manifest_skipped_witness :
    "p" ∈ discoverPlugins envBad.fs ∧ (listPlugins envBad st0).1 = [] :=
  ⟨(malformed_manifest_skipped envBad st0 "p" ⟨"p", true, true, none⟩ rfl rfl
      rfl rfl rfl rfl).1, rfl⟩

end GAssist
